import Mathlib

/-!
Shallow embedding of the acl-arduino language-server and explorer glue code
(src/server/src/arduino-cli.ts, src/server/src/arduino-diagnostic.ts,
src/client/src/explorer/arduino-item.ts) together with theorems settling the
testable properties stated in the specification.

External effects (the file system, JSON.parse, subprocess spawning) are
modelled as explicit function parameters; stateful fields (the config memo,
the command cache, the singleton instance) are passed as explicit state.
-/

namespace AclArduino

/-- JavaScript JSON values, as produced by JSON.parse and handled by the
server when parsing arduino-cli output and the project config file. -/
inductive JsVal where
  | null : JsVal
  | bool : Bool → JsVal
  | num : Int → JsVal
  | str : String → JsVal
  | arr : List JsVal → JsVal
  | obj : List (String × JsVal) → JsVal

/-- JavaScript truthiness of a JSON value: null, false, 0 and "" are falsy. -/
def JsVal.truthy : JsVal → Bool
  | .null => false
  | .bool b => b
  | .num n => n != 0
  | .str s => s ≠ ""
  | .arr _ => true
  | .obj _ => true

/-- Object field access, `v[k]`: the first binding of `k` when `v` is an
object, undefined (`none`) otherwise. -/
def JsVal.field : JsVal → String → Option JsVal
  | .obj fs, k => (fs.find? (fun p => p.1 = k)).map (fun p => p.2)
  | _, _ => none

/-- `path.join(a, b)` of Node, modelled as interposing the separator
(normalization of the joined path is elided; no claim depends on it). -/
def pathJoin (a b : String) : String := a ++ "/" ++ b

/-- `path.dirname(p)` of Node: the path with its last component removed. -/
def pathDirname (p : String) : String :=
  let parts := p.splitOn "/"
  if parts.length ≤ 1 then "." else String.intercalate "/" parts.dropLast

/-- A workspace folder as delivered by the language-server protocol:
its uri and display name (the fields this code reads). -/
structure WorkspaceFolder where
  uri : String
  name : String
  deriving DecidableEq, Repr

/-- The `logFile` option, typed `boolean | string` and optional in the
source (`logFile?: boolean | string`). -/
inductive LogFileOpt where
  | undef : LogFileOpt
  | bool : Bool → LogFileOpt
  | str : String → LogFileOpt
  deriving DecidableEq, Repr

/-- JavaScript template interpolation of the logFile value, as in
  the source's template string for the log-file argument. -/
def LogFileOpt.asTemplateString : LogFileOpt → String
  | .undef => "undefined"
  | .bool true => "true"
  | .bool false => "false"
  | .str s => s

/-- `ArduinoCliOptions` of arduino-cli.ts. -/
structure ArduinoCliOptions where
  workspaceFolder : Option WorkspaceFolder
  configFile : Option String
  debug : Bool
  verbose : Bool
  logFile : LogFileOpt
  arduinCliBin : Option String
  deriving DecidableEq, Repr

/-- `Partial<ArduinoCliOptions>` as received by `ArduinoCli.instance`:
every field may be absent. -/
structure PartialArduinoCliOptions where
  workspaceFolder : Option WorkspaceFolder := none
  configFile : Option String := none
  debug : Option Bool := none
  verbose : Option Bool := none
  logFile : Option LogFileOpt := none
  arduinCliBin : Option String := none
  deriving DecidableEq, Repr

/-- `ArduinoCli.normalizeOptions`: spread the partial options over the
defaults, derive `configFile` from the workspace folder when absent, and
resolve `logFile` against the workspace folder when debugging. -/
def normalizeOptions (args : PartialArduinoCliOptions) : ArduinoCliOptions :=
  let values : ArduinoCliOptions :=
    { workspaceFolder := args.workspaceFolder
      debug := args.debug.getD false
      verbose := args.verbose.getD false
      configFile := args.configFile
      logFile := args.logFile.getD .undef
      arduinCliBin := args.arduinCliBin }
  let values :=
    match values.workspaceFolder, values.configFile with
    | some wf, none =>
        { values with
            configFile := some (pathJoin (pathJoin wf.uri ".vscode") "aclabarduino.json") }
    | _, _ => values
  match values.workspaceFolder with
  | some wf =>
      if values.debug then
        match values.logFile with
        | .str s => { values with logFile := .str (pathJoin wf.uri s) }
        | .bool true =>
            { values with
                logFile := .str (pathJoin wf.uri ("arduino-cli-" ++ wf.name ++ ".log")) }
        | _ => values
      else values
  | none => values

/-- `ArduinoCli.normalizeArguments`: the global/debug argument list pushed
once at construction and appended to every CLI invocation. -/
def normalizeArguments (runOptions : ArduinoCliOptions) : List String :=
  let args : Array String := #[]
  let args :=
    match runOptions.configFile with
    | some cf =>
        (args.push "--config-file").push (pathJoin (pathDirname cf) "arduino-cli.yaml")
    | none => args
  let args :=
    if runOptions.debug then
      (((args.push "--log-file").push runOptions.logFile.asTemplateString).push
          "--log-level").push "debug"
    else args
  let args := if runOptions.verbose then args.push "--verbose" else args
  args.toList

/-- `IArduinoExec`: the tri-field result of every CLI invocation. `none`
in `data` models the TypeScript `undefined`. -/
structure IArduinoExec where
  status : Bool
  data : Option JsVal
  reason : String

/-- The outcome of `spawnSync`: exit status, stdout and stderr (Buffers in
Node, read through toString). -/
structure SpawnResult where
  exitStatus : Int
  stdout : String
  stderr : String

/-- A recorded subprocess invocation: the binary and its parameter list.
The embedding returns the list of spawns an operation performed, so that
"without spawning any subprocess" is expressible. -/
structure SpawnCall where
  bin : String
  params : List String

def FORMAT_JSON : List String := ["--format", "json"]

def FORMAT_TEXT : List String := ["--format", "text"]

/-- The external world the `ArduinoCli` class touches: JSON.parse (where
`none` models a thrown SyntaxError), spawnSync, the file system, and the
platform constants. -/
structure CliEnv where
  jsonParse : String → Option JsVal
  spawn : String → List String → SpawnResult
  fileExists : String → Bool
  readFile : String → String
  platform : String
  aclHome : String

/-- JavaScript `s.split(sep)` for a one-character separator (the source
splits on "\r"; the spec's reading splits on "\n"): cut the character list
at every occurrence of the separator. -/
def jsSplit1Aux (sep : Char) : List Char → List (List Char)
  | [] => [[]]
  | c :: rest =>
      match jsSplit1Aux sep rest with
      | [] => [[]]
      | t :: ts => if c = sep then [] :: t :: ts else (c :: t) :: ts

/-- JavaScript `s.split(sep)` for a one-character separator. -/
def jsSplit1 (sep : Char) (s : String) : List String :=
  (jsSplit1Aux sep s.data).map String.mk

/-- The tail of `ArduinoCli.executeCommand` (after spawnSync returned,
with the locals `error` and `stdout` inlined): build the tri-field result
from stderr and stdout. `Except.error` models the JSON.parse exception
escaping the method. -/
def executeCommandRun (jsonParse : String → Option JsVal) (extra : List String)
    (command : SpawnResult) : Except String IArduinoExec :=
  if command.stdout.length = 0 then
    .ok { status := command.stderr.length == 0, data := none, reason := command.stderr }
  else if extra[1]? == some "text" then
    .ok { status := command.stderr.length == 0
          data := some (.obj [("text", .arr ((jsSplit1 '\r' command.stdout).map .str))])
          reason := command.stderr }
  else
    match jsonParse command.stdout with
    | some v =>
        .ok { status := command.stderr.length == 0, data := some v
              reason := command.stderr }
    | none => .error "SyntaxError: JSON.parse"

/-- `ArduinoCli.executeCommand`: report failure when no CLI binary is
configured, otherwise assemble the parameter list, spawn the binary and
process its output. The second component records the spawns performed. -/
def executeCommand (env : CliEnv) (arduinCliBin : Option String)
    (runArguments : List String) (commandCli : String) (args : List String)
    (extra : List String) : Except String IArduinoExec × List SpawnCall :=
  match arduinCliBin with
  | none =>
      (.ok { status := false, data := none, reason := "Arduino-CLI not informed" }, [])
  | some bin =>
      let params :=
        commandCli :: (args.filter (fun value => value.length > 0) ++ runArguments ++ extra)
      (executeCommandRun env.jsonParse extra (env.spawn bin params), [⟨bin, params⟩])

/-- Modelled from the spec: `CONFIG_SERVER_DEFAULT` lives in
src/server/src/model/config-model.ts, which is not among the provided
sources. The spec describes the config model as flat key/value settings
(board FQBN, port, CLI version, platform version) "defaulted when missing";
the default is modelled as a fixed JSON object of empty selections. The
theorems below depend only on its identity, never on the field values. -/
def CONFIG_SERVER_DEFAULT : JsVal :=
  .obj [("cliVersion", .str ""), ("board", .str ""), ("board_name", .str ""),
        ("port", .str ""), ("platformVersion", .str "")]

/-- The `config` getter of `ArduinoCli`. `cached` is the memoized `_config`
field (`none` models `undefined`); the result is the getter's value, which
is also the new memo. When JSON.parse throws, the catch block only logs,
so `_config` keeps its previous value. -/
def configGet (jsonParse : String → Option JsVal) (fileExists : String → Bool)
    (readFile : String → String) (configFile : Option String)
    (cached : Option JsVal) : Option JsVal :=
  if (cached.map JsVal.truthy).getD false then cached
  else
    match configFile with
    | some f =>
        if fileExists f then
          let content := readFile f
          match jsonParse content with
          | some v => some v
          | none => cached
        else some CONFIG_SERVER_DEFAULT
    | none => some CONFIG_SERVER_DEFAULT

/-- Modelled from the spec: `ACLCache` (src/server/src/cache.ts, not among
the provided sources) is "a key→value lookup keyed by command name +
arguments, backed by flat files, with a clear-all operation", each entry
holding the last captured CLI result. The state is an association list
from cache id to result. -/
abbrev CacheState := List (String × IArduinoExec)

/-- Modelled from the spec: `ACLCache.getCacheId`, the command signature —
command name plus serialized arguments. -/
def ACLCache.getCacheId (command : String) (args : List String) : String :=
  command ++ ":" ++ String.intercalate "," args

/-- Modelled from the spec: `ACLCache.load`, the lookup of the last
captured result under a cache id. -/
def ACLCache.load (cache : CacheState) (cacheId : String) : Option IArduinoExec :=
  (cache.find? (fun entry => entry.1 == cacheId)).map (fun entry => entry.2)

/-- Modelled from the spec: `ACLCache.write`, capturing a result under the
id and replacing any previous capture. -/
def ACLCache.write (cache : CacheState) (cacheId : String)
    (value : IArduinoExec) : CacheState :=
  (cacheId, value) :: cache.filter (fun entry => entry.1 != cacheId)

/-- Modelled from the spec: `ACLCache.clear`, the clear-all operation. -/
def ACLCache.clear (_ : CacheState) : CacheState := []

/-- `ArduinoCli.coreList` (with the local `cacheId` inlined): serve from
the cache under the signature of `coreList` and its params; on a miss run
`core list` and capture the result. Returns the result, the new cache
state and the spawns made. -/
def coreList (env : CliEnv) (arduinCliBin : Option String)
    (runArguments : List String) (cache : CacheState) (params : String) :
    Except String IArduinoExec × CacheState × List SpawnCall :=
  match ACLCache.load cache (ACLCache.getCacheId "coreList" [params]) with
  | some result => (.ok result, cache, [])
  | none =>
      match executeCommand env arduinCliBin runArguments "core" ["list", params] FORMAT_JSON with
      | (.ok result, calls) =>
          (.ok result,
            ACLCache.write cache (ACLCache.getCacheId "coreList" [params]) result, calls)
      | (.error e, calls) => (.error e, cache, calls)

/-- `ArduinoCli.boardList` (with the local `cacheId` inlined): like
`coreList`, for `board list` under the signature of `boardList` with no
params. -/
def boardList (env : CliEnv) (arduinCliBin : Option String)
    (runArguments : List String) (cache : CacheState) :
    Except String IArduinoExec × CacheState × List SpawnCall :=
  match ACLCache.load cache (ACLCache.getCacheId "boardList" []) with
  | some result => (.ok result, cache, [])
  | none =>
      match executeCommand env arduinCliBin runArguments "board" ["list"] FORMAT_JSON with
      | (.ok result, calls) =>
          (.ok result,
            ACLCache.write cache (ACLCache.getCacheId "boardList" []) result, calls)
      | (.error e, calls) => (.error e, cache, calls)

/-- `ArduinoCli.coreUpdateIndex`: clear the whole cache, then run
`core update-index` in text format. -/
def coreUpdateIndex (env : CliEnv) (arduinCliBin : Option String)
    (runArguments : List String) (cache : CacheState) :
    Except String IArduinoExec × CacheState × List SpawnCall :=
  match executeCommand env arduinCliBin runArguments "core" ["update-index"] FORMAT_TEXT with
  | (result, calls) => (result, ACLCache.clear cache, calls)

/-- `ArduinoCli.configInitFile`. -/
def configInitFile (env : CliEnv) (arduinCliBin : Option String)
    (runArguments : List String) (destFile : String) :
    Except String IArduinoExec × List SpawnCall :=
  executeCommand env arduinCliBin runArguments "config" ["init", "--dest-file", destFile] FORMAT_JSON

/-- `ArduinoCli.coreInstall`. -/
def coreInstall (env : CliEnv) (arduinCliBin : Option String)
    (runArguments : List String) (platform version : String) :
    Except String IArduinoExec × List SpawnCall :=
  executeCommand env arduinCliBin runArguments "core"
    ["install", platform ++ "@" ++ version] FORMAT_TEXT

/-- `ArduinoCli.findExecutable`: the platform-specific path of the
arduino-cli binary under ACL_HOME for a release, when present on disk.
`release || "xxxx"` coalesces a falsy release. -/
def findExecutable (env : CliEnv) (release : String) : Option String :=
  let release := if release = "" then "xxxx" else release
  let cliPath :=
    match env.platform with
    | "win32" =>
        pathJoin (pathJoin (pathJoin env.aclHome "arduino-cli") release) "arduino-cli.exe"
    | "linux" =>
        pathJoin (pathJoin (pathJoin env.aclHome "arduino-cli") release) "arduino-cli"
    | _ => ""
  if env.fileExists cliPath then some cliPath else none

/-- Reading `config.cliVersion` as the string the constructor passes to
`findExecutable`; an absent or non-string field stands for the falsy
JavaScript value that `release || "xxxx"` coalesces, modelled as "". -/
def JsVal.strField (v : JsVal) (k : String) : String :=
  match v.field k with
  | some (.str s) => s
  | _ => ""

/-- The `ArduinoCli` object: its run options, the argument list built once
by `normalizeArguments`, and the memoized `_config`. -/
structure ArduinoCliInstance where
  runOptions : ArduinoCliOptions
  runArguments : List String
  config : Option JsVal

/-- The private `ArduinoCli` constructor: store the options and arguments,
then, when the config getter yields a truthy value, resolve
`arduinCliBin` from the configured CLI version. -/
def ArduinoCli.construct (env : CliEnv) (runOptions : ArduinoCliOptions)
    (runArguments : List String) : ArduinoCliInstance :=
  let cfg := configGet env.jsonParse env.fileExists env.readFile runOptions.configFile none
  match cfg with
  | some c =>
      if c.truthy then
        { runOptions :=
            { runOptions with
                arduinCliBin := findExecutable env (c.strField "cliVersion") }
          runArguments := runArguments
          config := cfg }
      else { runOptions := runOptions, runArguments := runArguments, config := cfg }
  | none => { runOptions := runOptions, runArguments := runArguments, config := cfg }

/-- `ArduinoCli.instance` (named `instanceFn` here because `instance` is a
Lean keyword): when the static `_instance` field (passed as `st`) is unset,
normalize the options, build the argument list and construct the client;
otherwise return the existing instance untouched. The result pairs the
returned client with the new `_instance` field. -/
def ArduinoCli.instanceFn (env : CliEnv) (st : Option ArduinoCliInstance)
    (initializationOptions : PartialArduinoCliOptions) :
    ArduinoCliInstance × Option ArduinoCliInstance :=
  match st with
  | some inst => (inst, some inst)
  | none =>
      let runOptions := normalizeOptions initializationOptions
      let runArguments := normalizeArguments runOptions
      let inst := ArduinoCli.construct env runOptions runArguments
      (inst, some inst)

namespace ArduinoDiagnostic

/-- `ArduinoDiagnostic.Error` of arduino-diagnostic.ts. -/
inductive ErrorCode where
  | E001_INVALID_CLI_VERSION : ErrorCode
  | E002_INVALID_BOARD : ErrorCode
  | E003_INVALID_PLATFORM_VERSION : ErrorCode
  | E004_INVALID_PORT : ErrorCode
  deriving DecidableEq, Repr

/-- The string value of each `Error` enum member. -/
def ErrorCode.value : ErrorCode → String
  | .E001_INVALID_CLI_VERSION => "E001"
  | .E002_INVALID_BOARD => "E002"
  | .E003_INVALID_PLATFORM_VERSION => "E003"
  | .E004_INVALID_PORT => "E004"

/-- `ArduinoDiagnostic.Information` of arduino-diagnostic.ts. -/
inductive InformationCode where
  | I002_INVALID_BOARD_NAME_UPDATE : InformationCode
  | I003_INVALID_BOARD_NAME_INSERT : InformationCode
  deriving DecidableEq, Repr

/-- The string value of each `Information` enum member. -/
def InformationCode.value : InformationCode → String
  | .I002_INVALID_BOARD_NAME_UPDATE => "I002"
  | .I003_INVALID_BOARD_NAME_INSERT => "I003"

/-- The union type `Error | Information` that `codeToSeverity` accepts. -/
inductive Code where
  | err : ErrorCode → Code
  | info : InformationCode → Code
  deriving DecidableEq, Repr

/-- The string value of a code, as the enum member evaluates in TS. -/
def Code.value : Code → String
  | .err e => e.value
  | .info i => i.value

/-- `DiagnosticSeverity` of the language-server protocol. -/
inductive DiagnosticSeverity where
  | Error : DiagnosticSeverity
  | Warning : DiagnosticSeverity
  | Information : DiagnosticSeverity
  | Hint : DiagnosticSeverity
  deriving DecidableEq, Repr

/-- `code.charAt(0)`: the first character as a one-character string
("" when the string is empty). -/
def charAt0 (s : String) : String := s.take 1

/-- `codeToSeverity` of arduino-diagnostic.ts: a switch on the code's
first character. -/
def codeToSeverity (code : Code) : Option DiagnosticSeverity :=
  match charAt0 code.value with
  | "E" => some .Error
  | "W" => some .Warning
  | "I" => some .Information
  | "H" => some .Hint
  | _ => none

end ArduinoDiagnostic

namespace Explorer

/-- Modelled from the spec: `ArduinoEntryStatus`
(src/client/src/explorer/arduino-entry.ts, not among the provided
sources). The spec lists statuses ok, candidate and error; the default
branch of `statusToString` shows a fourth, checking, state. -/
inductive ArduinoEntryStatus where
  | ok : ArduinoEntryStatus
  | candidate : ArduinoEntryStatus
  | error : ArduinoEntryStatus
  | checking : ArduinoEntryStatus
  deriving DecidableEq, Repr

/-- Modelled from the spec: the value the status enum interpolates to in
the template string for the item description; modelled as the status
name (no claim depends on the exact text). -/
def ArduinoEntryStatus.interp : ArduinoEntryStatus → String
  | .ok => "ok"
  | .candidate => "candidate"
  | .error => "error"
  | .checking => "checking"

/-- A language-client Diagnostic, reduced to the message field this code
reads. -/
structure ClientDiagnostic where
  message : String
  deriving DecidableEq, Repr

/-- Modelled from the spec: the fields of the entry's parsed config model
read by the tree item (alias, port, board name); an absent alias is "",
which is falsy in the conditional choosing the label. -/
structure ArduinoEntryModel where
  «alias» : String
  port : String
  board_name : String
  deriving DecidableEq, Repr

/-- The entry's workspace project: display name and uri fsPath. -/
structure ProjectFolder where
  name : String
  uriFsPath : String
  deriving DecidableEq, Repr

/-- Modelled from the spec: `IArduinoEntry` — workspace folder + parsed
config file + status + list of diagnostics. -/
structure IArduinoEntry where
  model : ArduinoEntryModel
  project : ProjectFolder
  status : ArduinoEntryStatus
  errors : List ClientDiagnostic
  deriving DecidableEq, Repr

/-- `vscode.TreeItemCollapsibleState`. -/
inductive TreeItemCollapsibleState where
  | None : TreeItemCollapsibleState
  | Collapsed : TreeItemCollapsibleState
  | Expanded : TreeItemCollapsibleState
  deriving DecidableEq, Repr

/-- The command attached to a tree item: command id, title and the
arguments list (here always the entry's project). -/
structure TreeCommand where
  command : String
  title : String
  arguments : List ProjectFolder
  deriving DecidableEq, Repr

/-- A light/dark icon pair. -/
structure IconPath where
  light : String
  dark : String
  deriving DecidableEq, Repr

/-- The module constant `__dirname` of arduino-item.ts, kept symbolic. -/
def dirnameVar : String := "__dirname"

/-- `path.resolve(...)` over the module's segment lists, modelled as a
separator join (the `..` segments are kept verbatim; no claim depends on
path normalization, only on which constant is chosen). -/
def pathResolveSegs (segs : List String) : String := String.intercalate "/" segs

/-- The icon file constants of arduino-item.ts. -/
def iconFileLight : String :=
  pathResolveSegs [dirnameVar, "..", "..", "..", "fileicons", "light", "aclabarduino_file.svg"]

def iconFileDark : String :=
  pathResolveSegs [dirnameVar, "..", "..", "..", "fileicons", "dark", "aclabarduino_file.svg"]

def iconFileNotExistLight : String :=
  pathResolveSegs [dirnameVar, "..", "..", "..", "fileicons", "light",
    "aclabarduino_file_not_exist.svg"]

def iconFileNotExistDark : String :=
  pathResolveSegs [dirnameVar, "..", "..", "..", "fileicons", "dark",
    "aclabarduino_file_not_exist.svg"]

/-- `statusToString` of arduino-item.ts (the checking case is the default
branch). -/
def statusToString : ArduinoEntryStatus → String
  | .ok => ""
  | .candidate => "<candidate>"
  | .error => "<error>"
  | .checking => "<checking>"

/-- The rendered `ArduinoTreeItem`: the fields assigned by the class body
and the collapsible state chosen in the constructor. -/
structure ArduinoTreeItem where
  entry : IArduinoEntry
  label : String
  collapsibleState : TreeItemCollapsibleState
  description : String
  tooltip : String
  command : TreeCommand
  iconPath : IconPath
  contextValue : String
  deriving DecidableEq, Repr

/-- Construction of an `ArduinoTreeItem` from an entry, following the
class body of arduino-item.ts field by field. -/
def ArduinoTreeItem.make (entry : IArduinoEntry) : ArduinoTreeItem :=
  { entry := entry
    label :=
      if entry.model.«alias» ≠ "" then entry.model.«alias» else entry.project.name
    collapsibleState :=
      if entry.status = .ok then .Collapsed else .None
    description :=
      entry.model.port ++ " " ++ statusToString entry.status ++ " [" ++
        entry.status.interp ++ "]"
    tooltip :=
      if entry.status = .error then
        String.intercalate "\n" (entry.errors.map (fun value => value.message))
      else entry.model.board_name ++ " <" ++ entry.project.uriFsPath ++ ">"
    command :=
      if entry.status = .ok then
        { command := "arduinoExplorer.openConfiguration", title := "Open"
          arguments := [entry.project] }
      else if entry.status = .candidate then
        { command := "arduinoExplorer.initialize", title := "Initialize"
          arguments := [entry.project] }
      else
        { command := "arduinoExplorer.checkProject", title := "Check"
          arguments := [entry.project] }
    iconPath :=
      { light := if entry.status = .ok then iconFileLight else iconFileNotExistLight
        dark := if entry.status = .ok then iconFileDark else iconFileNotExistDark }
    contextValue := if entry.status = .ok then "aclProject" else "candidateProject" }

end Explorer

/-! ## Helper lemmas -/

theorem string_length_eq_zero_iff (s : String) : s.length = 0 ↔ s = "" := by
  constructor
  · intro h
    apply String.ext
    exact List.length_eq_zero.mp h
  · intro h
    subst h
    rfl

theorem string_length_beq_zero_iff (s : String) : (s.length == 0) = true ↔ s = "" := by
  rw [Nat.beq_eq_true_eq]
  exact string_length_eq_zero_iff s

/-! ## Theorems for the claims -/

/-- C3: the diagnostic code → severity mapping is total and correct on the
defined codes: every code of the Error enum maps to Error severity, every
code of the Information enum maps to Information severity, the result is
never undefined for a defined code, and the severity is determined solely
by the code's first character (codes sharing a first character share a
severity). -/
theorem c3_codeToSeverity_total_correct :
    (∀ c : ArduinoDiagnostic.Code,
      (ArduinoDiagnostic.codeToSeverity c).isSome = true) ∧
    (∀ e : ArduinoDiagnostic.ErrorCode,
      ArduinoDiagnostic.codeToSeverity (.err e) = some .Error) ∧
    (∀ i : ArduinoDiagnostic.InformationCode,
      ArduinoDiagnostic.codeToSeverity (.info i) = some .Information) ∧
    (∀ c c' : ArduinoDiagnostic.Code,
      ArduinoDiagnostic.charAt0 c.value = ArduinoDiagnostic.charAt0 c'.value →
      ArduinoDiagnostic.codeToSeverity c = ArduinoDiagnostic.codeToSeverity c') := by
  refine ⟨?_, ?_, ?_, ?_⟩
  · intro c
    rcases c with e | i
    · cases e <;> decide
    · cases i <;> decide
  · intro e
    cases e <;> decide
  · intro i
    cases i <;> decide
  · intro c c' h
    unfold ArduinoDiagnostic.codeToSeverity
    rw [h]

/-- C3 witness: the severity mapping evaluated at concrete defined codes,
and first-character determination applied to two concrete E-codes. -/
theorem c3_codeToSeverity_witness :
    ArduinoDiagnostic.codeToSeverity
        (.err .E001_INVALID_CLI_VERSION) =
      ArduinoDiagnostic.codeToSeverity (.err .E002_INVALID_BOARD) :=
  c3_codeToSeverity_total_correct.2.2.2
    (.err .E001_INVALID_CLI_VERSION) (.err .E002_INVALID_BOARD) (by decide)

/-- C6: the global/debug argument list built once at construction contains
the `--config-file <dirname(configFile)>/arduino-cli.yaml` pair exactly
when a config file is set, the four tokens
`--log-file <logFile> --log-level debug` exactly when debug is true, and
`--verbose` exactly when verbose is true, in that fixed order; and
executeCommand appends that list to the parameter list of every spawned
invocation. -/
theorem c6_normalizeArguments_shape (runOptions : ArduinoCliOptions) :
    normalizeArguments runOptions =
      (match runOptions.configFile with
        | some cf => ["--config-file", pathJoin (pathDirname cf) "arduino-cli.yaml"]
        | none => []) ++
      (if runOptions.debug then
        ["--log-file", runOptions.logFile.asTemplateString, "--log-level", "debug"]
       else []) ++
      (if runOptions.verbose then ["--verbose"] else []) ∧
    (∀ env bin commandCli args extra,
      (executeCommand env (some bin) (normalizeArguments runOptions)
          commandCli args extra).2 =
        [⟨bin, commandCli :: (args.filter (fun value => value.length > 0) ++
            normalizeArguments runOptions ++ extra)⟩]) := by
  constructor
  · rcases runOptions with ⟨wf, cf, debug, verbose, logFile, bin⟩
    rcases cf with _ | cf <;> rcases debug <;> rcases verbose <;>
      simp [normalizeArguments]
  · intro env bin commandCli args extra
    rfl

/-- C7: `ArduinoCli.instance` is a process-wide singleton: a repeated call
with any later initialization options returns the identical instance and
leaves the stored instance unchanged, and a first call (no stored
instance) constructs the client from the given initialization options. -/
theorem c7_instance_singleton (env : CliEnv) (st : Option ArduinoCliInstance)
    (opts opts2 : PartialArduinoCliOptions) :
    ArduinoCli.instanceFn env (ArduinoCli.instanceFn env st opts).2 opts2 =
      ArduinoCli.instanceFn env st opts ∧
    (ArduinoCli.instanceFn env none opts).1 =
      ArduinoCli.construct env (normalizeOptions opts)
        (normalizeArguments (normalizeOptions opts)) := by
  constructor
  · rcases st with _ | inst <;> rfl
  · rfl

/-- C10: a rendered tree item for an entry whose status is not ok —
including the error status — has contextValue "candidateProject", the
file-not-exist icon pair and the non-collapsible state, and its command is
not the open-configuration command; an entry with status ok gets
contextValue "aclProject", the normal file icon pair, the Collapsed state
and the open-configuration command. -/
theorem c10_tree_item_rendering (entry : Explorer.IArduinoEntry) :
    (entry.status ≠ .ok →
      (Explorer.ArduinoTreeItem.make entry).contextValue = "candidateProject" ∧
      (Explorer.ArduinoTreeItem.make entry).iconPath =
        ⟨Explorer.iconFileNotExistLight, Explorer.iconFileNotExistDark⟩ ∧
      (Explorer.ArduinoTreeItem.make entry).collapsibleState = .None ∧
      (Explorer.ArduinoTreeItem.make entry).command.command ≠
        "arduinoExplorer.openConfiguration") ∧
    (entry.status = .ok →
      (Explorer.ArduinoTreeItem.make entry).contextValue = "aclProject" ∧
      (Explorer.ArduinoTreeItem.make entry).iconPath =
        ⟨Explorer.iconFileLight, Explorer.iconFileDark⟩ ∧
      (Explorer.ArduinoTreeItem.make entry).collapsibleState = .Collapsed ∧
      (Explorer.ArduinoTreeItem.make entry).command =
        ⟨"arduinoExplorer.openConfiguration", "Open", [entry.project]⟩) := by
  constructor
  · intro h
    rcases hs : entry.status <;>
      simp [Explorer.ArduinoTreeItem.make, hs] at h ⊢
  · intro h
    simp [Explorer.ArduinoTreeItem.make, h]

/-- C10 witness: the rendering evaluated at a concrete error entry and a
concrete ok entry. -/
theorem c10_tree_item_witness :
    ((Explorer.ArduinoTreeItem.make
        ⟨⟨"", "p1", "uno"⟩, ⟨"proj", "/w/proj"⟩, .error, []⟩).contextValue =
          "candidateProject" ∧
      (Explorer.ArduinoTreeItem.make
        ⟨⟨"", "p1", "uno"⟩, ⟨"proj", "/w/proj"⟩, .error, []⟩).iconPath =
          ⟨Explorer.iconFileNotExistLight, Explorer.iconFileNotExistDark⟩ ∧
      (Explorer.ArduinoTreeItem.make
        ⟨⟨"", "p1", "uno"⟩, ⟨"proj", "/w/proj"⟩, .error, []⟩).collapsibleState = .None ∧
      (Explorer.ArduinoTreeItem.make
        ⟨⟨"", "p1", "uno"⟩, ⟨"proj", "/w/proj"⟩, .error, []⟩).command.command ≠
          "arduinoExplorer.openConfiguration") ∧
    ((Explorer.ArduinoTreeItem.make
        ⟨⟨"", "p1", "uno"⟩, ⟨"proj", "/w/proj"⟩, .ok, []⟩).contextValue = "aclProject" ∧
      (Explorer.ArduinoTreeItem.make
        ⟨⟨"", "p1", "uno"⟩, ⟨"proj", "/w/proj"⟩, .ok, []⟩).iconPath =
          ⟨Explorer.iconFileLight, Explorer.iconFileDark⟩ ∧
      (Explorer.ArduinoTreeItem.make
        ⟨⟨"", "p1", "uno"⟩, ⟨"proj", "/w/proj"⟩, .ok, []⟩).collapsibleState = .Collapsed ∧
      (Explorer.ArduinoTreeItem.make
        ⟨⟨"", "p1", "uno"⟩, ⟨"proj", "/w/proj"⟩, .ok, []⟩).command =
          ⟨"arduinoExplorer.openConfiguration", "Open", [⟨"proj", "/w/proj"⟩]⟩) :=
  ⟨(c10_tree_item_rendering ⟨⟨"", "p1", "uno"⟩, ⟨"proj", "/w/proj"⟩, .error, []⟩).1
      (by decide),
    (c10_tree_item_rendering ⟨⟨"", "p1", "uno"⟩, ⟨"proj", "/w/proj"⟩, .ok, []⟩).2 rfl⟩

theorem executeCommandRun_ok_status (jsonParse : String → Option JsVal)
    (extra : List String) (cmd : SpawnResult) (r : IArduinoExec)
    (h : executeCommandRun jsonParse extra cmd = .ok r) :
    r.status = (cmd.stderr.length == 0) ∧ r.reason = cmd.stderr := by
  unfold executeCommandRun at h
  by_cases h0 : cmd.stdout.length = 0
  · rw [if_pos h0] at h
    cases h
    exact ⟨rfl, rfl⟩
  · rw [if_neg h0] at h
    by_cases h1 : (extra[1]? == some "text") = true
    · rw [if_pos h1] at h
      cases h
      exact ⟨rfl, rfl⟩
    · rw [if_neg h1] at h
      rcases hp : jsonParse cmd.stdout with _ | v
      · rw [hp] at h
        cases h
      · rw [hp] at h
        cases h
        exact ⟨rfl, rfl⟩

/-- C2: with a configured CLI binary, a returned result has status true
iff the spawned subprocess produced empty stderr — non-empty stderr is the
sole condition reporting failure — and the stderr text is the reason
verbatim; such an invocation is exactly the processing of the spawned
subprocess's output. -/
theorem c2_status_iff_empty_stderr :
    (∀ (jsonParse : String → Option JsVal) (extra : List String)
        (cmd : SpawnResult) (r : IArduinoExec),
      executeCommandRun jsonParse extra cmd = .ok r →
      ((r.status = true ↔ cmd.stderr = "") ∧ r.reason = cmd.stderr)) ∧
    (∀ (env : CliEnv) (bin : String) (runArguments : List String)
        (commandCli : String) (args extra : List String),
      executeCommand env (some bin) runArguments commandCli args extra =
        (executeCommandRun env.jsonParse extra
            (env.spawn bin (commandCli ::
              (args.filter (fun value => value.length > 0) ++ runArguments ++ extra))),
          [⟨bin, commandCli ::
              (args.filter (fun value => value.length > 0) ++ runArguments ++ extra)⟩])) := by
  constructor
  · intro jsonParse extra cmd r h
    obtain ⟨hs, hr⟩ := executeCommandRun_ok_status jsonParse extra cmd r h
    refine ⟨?_, hr⟩
    rw [hs]
    exact string_length_beq_zero_iff cmd.stderr
  · intro env bin runArguments commandCli args extra
    rfl

/-- C2 witness: the status/reason property evaluated at a concrete
subprocess outcome with non-empty stderr. -/
theorem c2_status_iff_empty_stderr_witness :
    executeCommandRun (fun _ => none) FORMAT_JSON ⟨0, "", "err"⟩ =
      .ok { status := false, data := none, reason := "err" } ∧
    ((({ status := false, data := none, reason := "err" } : IArduinoExec).status = true ↔
        (⟨0, "", "err"⟩ : SpawnResult).stderr = "") ∧
      ({ status := false, data := none, reason := "err" } : IArduinoExec).reason =
        (⟨0, "", "err"⟩ : SpawnResult).stderr) :=
  ⟨rfl, c2_status_iff_empty_stderr.1 (fun _ => none) FORMAT_JSON ⟨0, "", "err"⟩ _ rfl⟩

/-- The claim's reading of the text-format data: stdout split into its
newline-delimited lines, as a JSON array of strings. Stated from the
spec's words, for comparison with the code's behaviour. -/
def specNewlineSplitData (stdout : String) : JsVal :=
  .arr ((jsSplit1 '\n' stdout).map .str)

/-- C5 counterexample: for stdout "a\nb" under the text output format the
code returns data {text: ["a\nb"]} (in the doc sense: stdout split on
carriage returns and wrapped in an object under the text key), which is
not the newline-delimited line list the claim states. -/
theorem c5_counterexample :
    executeCommandRun (fun _ => none) FORMAT_TEXT ⟨0, "a\nb", ""⟩ =
      .ok { status := true
            data := some (.obj [("text", .arr [.str "a\nb"])])
            reason := "" } ∧
    JsVal.obj [("text", JsVal.arr [JsVal.str "a\nb"])] ≠
      specNewlineSplitData "a\nb" := by
  constructor
  · rfl
  · intro h
    exact JsVal.noConfusion h

/-- C5 amended: a returned result's data is undefined exactly when stdout
is empty; for non-empty stdout under the text output format, data is an
object whose text field holds stdout split on carriage-return characters;
under a non-text (JSON) output format, data is the successful JSON parse
of stdout. -/
theorem c5_data_field (jsonParse : String → Option JsVal) (extra : List String)
    (cmd : SpawnResult) (r : IArduinoExec)
    (h : executeCommandRun jsonParse extra cmd = .ok r) :
    (r.data = none ↔ cmd.stdout = "") ∧
    (cmd.stdout ≠ "" → extra[1]? = some "text" →
      r.data = some (.obj [("text", .arr ((jsSplit1 '\r' cmd.stdout).map .str))])) ∧
    (cmd.stdout ≠ "" → extra[1]? ≠ some "text" →
      ∃ v, jsonParse cmd.stdout = some v ∧ r.data = some v) := by
  unfold executeCommandRun at h
  by_cases h0 : cmd.stdout.length = 0
  · rw [if_pos h0] at h
    cases h
    have hempty : cmd.stdout = "" := (string_length_eq_zero_iff _).mp h0
    exact ⟨by simp [hempty], fun hne _ => absurd hempty hne,
      fun hne _ => absurd hempty hne⟩
  · rw [if_neg h0] at h
    have hne : cmd.stdout ≠ "" := fun he => h0 (by rw [he]; rfl)
    by_cases h1 : (extra[1]? == some "text") = true
    · rw [if_pos h1] at h
      cases h
      refine ⟨by simp [hne], fun _ _ => rfl, fun _ hnotext => ?_⟩
      exact absurd (beq_iff_eq.mp h1) hnotext
    · rw [if_neg h1] at h
      rcases hp : jsonParse cmd.stdout with _ | v
      · rw [hp] at h
        cases h
      · rw [hp] at h
        cases h
        refine ⟨by simp [hne], fun _ htext2 => ?_, fun _ _ => ⟨v, rfl, rfl⟩⟩
        exact absurd (by rw [htext2]; rfl) h1

/-- C5 amended witness: the data-field property evaluated at a concrete
JSON-format invocation with non-empty stdout. -/
theorem c5_data_field_witness :
    executeCommandRun (fun _ => some (.num 7)) FORMAT_JSON ⟨0, "7", ""⟩ =
      .ok { status := true, data := some (.num 7), reason := "" } ∧
    ((({ status := true, data := some (.num 7), reason := "" } : IArduinoExec).data = none ↔
        (⟨0, "7", ""⟩ : SpawnResult).stdout = "") ∧
      ((⟨0, "7", ""⟩ : SpawnResult).stdout ≠ "" → FORMAT_JSON[1]? = some "text" →
        ({ status := true, data := some (.num 7), reason := "" } : IArduinoExec).data =
          some (.obj [("text",
            .arr ((jsSplit1 '\r' (⟨0, "7", ""⟩ : SpawnResult).stdout).map .str))])) ∧
      ((⟨0, "7", ""⟩ : SpawnResult).stdout ≠ "" → FORMAT_JSON[1]? ≠ some "text" →
        ∃ v, (fun _ => some (JsVal.num 7)) (⟨0, "7", ""⟩ : SpawnResult).stdout = some v ∧
          ({ status := true, data := some (.num 7), reason := "" } : IArduinoExec).data =
            some v)) :=
  ⟨rfl, c5_data_field (fun _ => some (.num 7)) FORMAT_JSON ⟨0, "7", ""⟩ _ rfl⟩

/-- C1 counterexample: when the config file exists but its content is
malformed (JSON.parse throws), the loaded configuration is undefined — the
catch block only logs — and not the defaults. -/
theorem c1_counterexample :
    configGet (fun _ => none) (fun _ => true) (fun _ => "bad") (some "cfg.json") none =
      none ∧
    (none : Option JsVal) ≠ some CONFIG_SERVER_DEFAULT :=
  ⟨rfl, fun h => Option.noConfusion h⟩

/-- C1 amended: a load (with an empty memo) where the config file path is
unset, or set to a file that does not exist, yields the default
configuration CONFIG_SERVER_DEFAULT; a load where the file exists but
JSON parsing of its content fails yields no configuration (the parse
error is only logged and the memo stays unset), not the defaults. -/
theorem c1_config_fallback (jsonParse : String → Option JsVal)
    (fileExists : String → Bool) (readFile : String → String) (f g : String) :
    configGet jsonParse fileExists readFile none none = some CONFIG_SERVER_DEFAULT ∧
    (fileExists f = false →
      configGet jsonParse fileExists readFile (some f) none =
        some CONFIG_SERVER_DEFAULT) ∧
    (fileExists g = true → jsonParse (readFile g) = none →
      configGet jsonParse fileExists readFile (some g) none = none) := by
  refine ⟨rfl, ?_, ?_⟩
  · intro h
    simp [configGet, h]
  · intro hg hp
    simp [configGet, hg, hp]

/-- C1 amended witness: the fallback behaviour evaluated at a concrete
file system with one present, malformed file and one absent file. -/
theorem c1_config_fallback_witness :
    configGet (fun _ => none) (fun s => s == "present") (fun _ => "bad") none none =
      some CONFIG_SERVER_DEFAULT ∧
    configGet (fun _ => none) (fun s => s == "present") (fun _ => "bad")
        (some "absent") none = some CONFIG_SERVER_DEFAULT ∧
    configGet (fun _ => none) (fun s => s == "present") (fun _ => "bad")
        (some "present") none = none :=
  ⟨(c1_config_fallback (fun _ => none) (fun s => s == "present") (fun _ => "bad")
      "absent" "present").1,
   (c1_config_fallback (fun _ => none) (fun s => s == "present") (fun _ => "bad")
      "absent" "present").2.1 rfl,
   (c1_config_fallback (fun _ => none) (fun s => s == "present") (fun _ => "bad")
      "absent" "present").2.2 rfl rfl⟩

theorem ACLCache.load_write_self (cache : CacheState) (cacheId : String)
    (value : IArduinoExec) :
    ACLCache.load (ACLCache.write cache cacheId value) cacheId = some value := by
  simp [ACLCache.load, ACLCache.write, List.find?_cons]

theorem executeCommand_calls_length_le_one (env : CliEnv) (bin : Option String)
    (runArguments : List String) (commandCli : String) (args extra : List String) :
    (executeCommand env bin runArguments commandCli args extra).2.length ≤ 1 := by
  rcases bin with _ | b
  · simp [executeCommand]
  · simp [executeCommand]

/-- The failure result `executeCommand` returns when no CLI binary is
configured. -/
def notInformedExec : IArduinoExec :=
  { status := false, data := none, reason := "Arduino-CLI not informed" }

/-- A concrete environment for witnesses: no file exists, JSON parsing
fails, and spawning returns empty output. -/
def witEnv : CliEnv :=
  { jsonParse := fun _ => none
    spawn := fun _ _ => ⟨0, "", ""⟩
    fileExists := fun _ => false
    readFile := fun _ => ""
    platform := "linux"
    aclHome := "/acl" }

/-- C4: cache idempotence and wholesale clearing: when a coreList call
returns a result, repeating it with the returned cache state yields the
same result with the same cache and no subprocess spawned — across the two
calls the external CLI is invoked at most once, the second call being
served from the cache under the command-signature key; likewise for
boardList; and coreUpdateIndex leaves the cache empty, removing every
entry before invoking the CLI. -/
theorem c4_cache_idempotent_clear (env : CliEnv) (bin : Option String)
    (runArguments : List String) :
    (∀ (cache : CacheState) (params : String) (r : IArduinoExec)
        (cache2 : CacheState) (calls : List SpawnCall),
      coreList env bin runArguments cache params = (.ok r, cache2, calls) →
      coreList env bin runArguments cache2 params = (.ok r, cache2, []) ∧
        calls.length ≤ 1) ∧
    (∀ (cache : CacheState) (r : IArduinoExec) (cache2 : CacheState)
        (calls : List SpawnCall),
      boardList env bin runArguments cache = (.ok r, cache2, calls) →
      boardList env bin runArguments cache2 = (.ok r, cache2, []) ∧
        calls.length ≤ 1) ∧
    (∀ cache : CacheState,
      (coreUpdateIndex env bin runArguments cache).2.1 = []) := by
  refine ⟨?_, ?_, ?_⟩
  · intro cache params r cache2 calls h
    unfold coreList at h
    rcases hl : ACLCache.load cache (ACLCache.getCacheId "coreList" [params]) with _ | cached
    · rw [hl] at h
      rcases hec : executeCommand env bin runArguments "core" ["list", params]
          FORMAT_JSON with ⟨res, calls2⟩
      rw [hec] at h
      rcases res with e | result
      · simp only [Prod.mk.injEq] at h
        exact Except.noConfusion h.1
      · simp only [Prod.mk.injEq, Except.ok.injEq] at h
        obtain ⟨h1, h2, h3⟩ := h
        subst h1
        subst h2
        subst h3
        constructor
        · unfold coreList
          rw [ACLCache.load_write_self]
        · have hlen := executeCommand_calls_length_le_one env bin runArguments
            "core" ["list", params] FORMAT_JSON
          rw [hec] at hlen
          exact hlen
    · rw [hl] at h
      simp only [Prod.mk.injEq, Except.ok.injEq] at h
      obtain ⟨h1, h2, h3⟩ := h
      subst h1
      subst h2
      subst h3
      constructor
      · unfold coreList
        rw [hl]
      · exact Nat.zero_le 1
  · intro cache r cache2 calls h
    unfold boardList at h
    rcases hl : ACLCache.load cache (ACLCache.getCacheId "boardList" []) with _ | cached
    · rw [hl] at h
      rcases hec : executeCommand env bin runArguments "board" ["list"]
          FORMAT_JSON with ⟨res, calls2⟩
      rw [hec] at h
      rcases res with e | result
      · simp only [Prod.mk.injEq] at h
        exact Except.noConfusion h.1
      · simp only [Prod.mk.injEq, Except.ok.injEq] at h
        obtain ⟨h1, h2, h3⟩ := h
        subst h1
        subst h2
        subst h3
        constructor
        · unfold boardList
          rw [ACLCache.load_write_self]
        · have hlen := executeCommand_calls_length_le_one env bin runArguments
            "board" ["list"] FORMAT_JSON
          rw [hec] at hlen
          exact hlen
    · rw [hl] at h
      simp only [Prod.mk.injEq, Except.ok.injEq] at h
      obtain ⟨h1, h2, h3⟩ := h
      subst h1
      subst h2
      subst h3
      constructor
      · unfold boardList
        rw [hl]
      · exact Nat.zero_le 1
  · intro cache
    unfold coreUpdateIndex
    rcases executeCommand env bin runArguments "core" ["update-index"]
        FORMAT_TEXT with ⟨res, calls⟩
    rfl

/-- C4 witness: idempotence evaluated at a concrete warm cache and the
clear evaluated at a concrete non-empty cache. -/
theorem c4_cache_witness :
    (coreList witEnv none [] [("coreList:p", notInformedExec)] "p" =
        (.ok notInformedExec, [("coreList:p", notInformedExec)], []) ∧
      ([] : List SpawnCall).length ≤ 1) ∧
    (boardList witEnv none [] [("boardList:", notInformedExec)] =
        (.ok notInformedExec, [("boardList:", notInformedExec)], []) ∧
      ([] : List SpawnCall).length ≤ 1) ∧
    (coreUpdateIndex witEnv none [] [("coreList:p", notInformedExec)]).2.1 = [] :=
  ⟨(c4_cache_idempotent_clear witEnv none []).1 [] "p" notInformedExec
      [("coreList:p", notInformedExec)] [] rfl,
    (c4_cache_idempotent_clear witEnv none []).2.1 [] notInformedExec
      [("boardList:", notInformedExec)] [] rfl,
    (c4_cache_idempotent_clear witEnv none []).2.2
      [("coreList:p", notInformedExec)]⟩

/-- C9: results are cached unconditionally, failed ones included: a miss
writes the executed result into the cache under the command signature
whatever its status, and a cached failure is returned as-is on every
later call with the same signature, with no subprocess spawned, as long
as the entry is in the cache. -/
theorem c9_failures_cached (env : CliEnv) (bin : Option String)
    (runArguments : List String) :
    (∀ (cache : CacheState) (params : String) (r : IArduinoExec)
        (cache2 : CacheState) (calls : List SpawnCall),
      ACLCache.load cache (ACLCache.getCacheId "coreList" [params]) = none →
      coreList env bin runArguments cache params = (.ok r, cache2, calls) →
      ACLCache.load cache2 (ACLCache.getCacheId "coreList" [params]) = some r) ∧
    (∀ (cache : CacheState) (params : String) (r : IArduinoExec),
      r.status = false →
      ACLCache.load cache (ACLCache.getCacheId "coreList" [params]) = some r →
      coreList env bin runArguments cache params = (.ok r, cache, [])) ∧
    (∀ (cache : CacheState) (r : IArduinoExec) (cache2 : CacheState)
        (calls : List SpawnCall),
      ACLCache.load cache (ACLCache.getCacheId "boardList" []) = none →
      boardList env bin runArguments cache = (.ok r, cache2, calls) →
      ACLCache.load cache2 (ACLCache.getCacheId "boardList" []) = some r) ∧
    (∀ (cache : CacheState) (r : IArduinoExec),
      r.status = false →
      ACLCache.load cache (ACLCache.getCacheId "boardList" []) = some r →
      boardList env bin runArguments cache = (.ok r, cache, [])) := by
  refine ⟨?_, ?_, ?_, ?_⟩
  · intro cache params r cache2 calls hl h
    unfold coreList at h
    rw [hl] at h
    rcases hec : executeCommand env bin runArguments "core" ["list", params]
        FORMAT_JSON with ⟨res, calls2⟩
    rw [hec] at h
    rcases res with e | result
    · simp only [Prod.mk.injEq] at h
      exact Except.noConfusion h.1
    · simp only [Prod.mk.injEq, Except.ok.injEq] at h
      obtain ⟨h1, h2, h3⟩ := h
      subst h1
      subst h2
      exact ACLCache.load_write_self cache _ _
  · intro cache params r _ hl
    unfold coreList
    rw [hl]
  · intro cache r cache2 calls hl h
    unfold boardList at h
    rw [hl] at h
    rcases hec : executeCommand env bin runArguments "board" ["list"]
        FORMAT_JSON with ⟨res, calls2⟩
    rw [hec] at h
    rcases res with e | result
    · simp only [Prod.mk.injEq] at h
      exact Except.noConfusion h.1
    · simp only [Prod.mk.injEq, Except.ok.injEq] at h
      obtain ⟨h1, h2, h3⟩ := h
      subst h1
      subst h2
      exact ACLCache.load_write_self cache _ _
  · intro cache r _ hl
    unfold boardList
    rw [hl]

/-- C9 witness: a cached failure (the not-informed result, whose status
is false) is written on a miss and then served as-is, for both coreList
and boardList, evaluated at concrete caches. -/
theorem c9_failures_cached_witness :
    ACLCache.load [("coreList:p", notInformedExec)]
        (ACLCache.getCacheId "coreList" ["p"]) = some notInformedExec ∧
    coreList witEnv none [] [("coreList:p", notInformedExec)] "p" =
      (.ok notInformedExec, [("coreList:p", notInformedExec)], []) ∧
    ACLCache.load [("boardList:", notInformedExec)]
        (ACLCache.getCacheId "boardList" []) = some notInformedExec ∧
    boardList witEnv none [] [("boardList:", notInformedExec)] =
      (.ok notInformedExec, [("boardList:", notInformedExec)], []) :=
  ⟨(c9_failures_cached witEnv none []).1 [] "p" notInformedExec
      [("coreList:p", notInformedExec)] [] rfl rfl,
    (c9_failures_cached witEnv none []).2.1 [("coreList:p", notInformedExec)] "p"
      notInformedExec rfl rfl,
    (c9_failures_cached witEnv none []).2.2.1 [] notInformedExec
      [("boardList:", notInformedExec)] [] rfl rfl,
    (c9_failures_cached witEnv none []).2.2.2 [("boardList:", notInformedExec)]
      notInformedExec rfl rfl⟩

/-- C8 counterexample: with no CLI binary configured but a previously
cached success under the coreList signature, coreList returns the cached
success — not the "Arduino-CLI not informed" failure the claim states for
every wrapper (no subprocess is spawned, as the claim says). -/
theorem c8_counterexample :
    coreList witEnv none [] [("coreList:p", { status := true, data := none, reason := "" })]
        "p" =
      (.ok { status := true, data := none, reason := "" },
        [("coreList:p", { status := true, data := none, reason := "" })], []) ∧
    ({ status := true, data := none, reason := "" } : IArduinoExec) ≠ notInformedExec := by
  constructor
  · rfl
  · intro h
    exact Bool.noConfusion (congrArg IArduinoExec.status h)

/-- C8 amended: with no CLI binary configured, executeCommand returns
{status: false, data: undefined, reason: "Arduino-CLI not informed"}
without spawning a subprocess; configInitFile and coreInstall therefore
return that failure without spawning; coreList and boardList also spawn
nothing, and return that failure (caching it) when the cache holds no
entry for their signature, while with a cached entry they return the
cached result instead. -/
theorem c8_no_binary (env : CliEnv) (runArguments : List String) :
    (∀ (commandCli : String) (args extra : List String),
      executeCommand env none runArguments commandCli args extra =
        (.ok notInformedExec, [])) ∧
    (∀ destFile : String,
      configInitFile env none runArguments destFile = (.ok notInformedExec, [])) ∧
    (∀ platform version : String,
      coreInstall env none runArguments platform version = (.ok notInformedExec, [])) ∧
    (∀ (cache : CacheState) (params : String),
      ACLCache.load cache (ACLCache.getCacheId "coreList" [params]) = none →
      coreList env none runArguments cache params =
        (.ok notInformedExec,
          ACLCache.write cache (ACLCache.getCacheId "coreList" [params]) notInformedExec,
          [])) ∧
    (∀ cache : CacheState,
      ACLCache.load cache (ACLCache.getCacheId "boardList" []) = none →
      boardList env none runArguments cache =
        (.ok notInformedExec,
          ACLCache.write cache (ACLCache.getCacheId "boardList" []) notInformedExec,
          [])) ∧
    (∀ (cache : CacheState) (params : String),
      (coreList env none runArguments cache params).2.2 = []) ∧
    (∀ cache : CacheState, (boardList env none runArguments cache).2.2 = []) := by
  refine ⟨fun _ _ _ => rfl, fun _ => rfl, fun _ _ => rfl, ?_, ?_, ?_, ?_⟩
  · intro cache params hl
    unfold coreList
    rw [hl]
    rfl
  · intro cache hl
    unfold boardList
    rw [hl]
    rfl
  · intro cache params
    unfold coreList
    rcases hl : ACLCache.load cache (ACLCache.getCacheId "coreList" [params]) with _ | cached
    · rfl
    · rfl
  · intro cache
    unfold boardList
    rcases hl : ACLCache.load cache (ACLCache.getCacheId "boardList" []) with _ | cached
    · rfl
    · rfl

/-- C8 amended witness: the no-binary behaviour evaluated at concrete
empty caches. -/
theorem c8_no_binary_witness :
    coreList witEnv none [] [] "p" =
      (.ok notInformedExec,
        ACLCache.write [] (ACLCache.getCacheId "coreList" ["p"]) notInformedExec, []) ∧
    boardList witEnv none [] [] =
      (.ok notInformedExec,
        ACLCache.write [] (ACLCache.getCacheId "boardList" []) notInformedExec, []) :=
  ⟨(c8_no_binary witEnv []).2.2.2.1 [] "p" rfl,
    (c8_no_binary witEnv []).2.2.2.2.1 [] rfl⟩

end AclArduino
